import Mathlib

/-!
Verification of the unit-expression formatter and format-spec splitter of
`pint/delegates/formatter/_helpers.py`.

The embedding is executable and follows the Python source line by line:

* Python `str` is Lean `String` (a list of characters, matching Python's
  code-point view of strings for the ASCII data exercised here).
* Exponents (Python `Number`) are `ℚ`: the source only needs exact
  comparison with `1`, `-1`, `0`, ordering, and printing.
* The external flag registry `_FORMATTERS` (defined outside this repository)
  is a parameter `flags : List String` given in dictionary insertion order.
* `str.format` on the templates used by the source is `pyFormat`; the
  `{\x64igits}` detection regex of `_join` is `hasJoinToken`; `str.replace`
  is `removeAllAux`; `re.findall` over an alternation of literal flags is
  `extractAux`.
* `raise ValueError(msg)` is `Except.error msg`; `warnings.warn` is an
  emitted `SplitWarning` list.

Recursions that Python performs by index arithmetic are written with an
explicit character-count fuel so that every definition is structural and
kernel-evaluable on concrete inputs.
-/

/-- Numeric value of a list of ASCII digit characters (as Python `int` of the
field inside a replacement token such as `"0"` in `"({0})"`). -/
def digitsToNat (l : List Char) : Nat :=
  l.foldl (fun n c => 10 * n + (c.toNat - 48)) 0

/-- Core of `str.format` for the PEP 3101 templates the source uses:
literal characters are copied; `\x7b\x7d` consumes the next auto-numbered
argument; `\x7b<digits>\x7d` consumes the argument with that index.  The fuel
is the length of the template, which bounds the number of steps. -/
def pyFormatAux (args : List String) : Nat → List Char → Nat → List Char
  | _, [], _ => []
  | 0, s, _ => s
  | fuel + 1, c :: rest, auto =>
    if c = '\x7b' then
      let field := rest.takeWhile (fun d => d ≠ '\x7d')
      let rest' := (rest.dropWhile (fun d => d ≠ '\x7d')).drop 1
      if field = [] then
        (args.getD auto "").data ++ pyFormatAux args fuel rest' (auto + 1)
      else if field.all Char.isDigit then
        (args.getD (digitsToNat field) "").data ++ pyFormatAux args fuel rest' auto
      else
        pyFormatAux args fuel rest' auto
    else
      c :: pyFormatAux args fuel rest auto

/-- Python `fmt.format(args...)` for the templates used by the source. -/
def pyFormat (fmt : String) (args : List String) : String :=
  String.mk (pyFormatAux args fmt.data.length fmt.data 0)

/-- `__JOIN_REG_EXP.search(fmt)`: does `fmt` contain a token `\x7b<digits>*\x7d`? -/
def hasJoinToken : List Char → Bool
  | [] => false
  | c :: rest =>
    ((c == '\x7b') && ((rest.dropWhile Char.isDigit).head? == some '\x7d'))
      || hasJoinToken rest

/-- `_join(fmt, iterable)` from the source: an empty iterable gives `""`;
a format with no replacement token is used as a separator (`fmt.join`);
otherwise the format is folded left-associatively over the elements. -/
def pyJoin (fmt : String) (l : List String) : String :=
  if l = [] then ""
  else if hasJoinToken fmt.data then
    match l with
    | [] => ""
    | x :: xs => xs.foldl (fun acc v => pyFormat fmt [acc, v]) x
  else
    String.intercalate fmt l

/-- Python's `<` on strings: strict lexicographic comparison of the two
code-point sequences. -/
def strLtb : List Char → List Char → Bool
  | [], [] => false
  | [], _ :: _ => true
  | _ :: _, [] => false
  | a :: as, b :: bs =>
    if a.toNat < b.toNat then true
    else if b.toNat < a.toNat then false
    else strLtb as bs

theorem strLtb_trichotomy : ∀ as bs : List Char,
    strLtb as bs = true ∨ as = bs ∨ strLtb bs as = true
  | [], [] => Or.inr (Or.inl rfl)
  | [], _ :: _ => Or.inl rfl
  | _ :: _, [] => Or.inr (Or.inr rfl)
  | a :: as, b :: bs => by
    rcases Nat.lt_trichotomy a.toNat b.toNat with h | h | h
    · exact Or.inl (by simp [strLtb, h])
    · have hab : a = b := Char.eq_of_val_eq (UInt32.eq_of_toBitVec_eq (by
        apply BitVec.eq_of_toNat_eq
        exact h))
      rcases strLtb_trichotomy as bs with h1 | h1 | h1
      · exact Or.inl (by simp [strLtb, h, hab, h1])
      · exact Or.inr (Or.inl (by rw [hab, h1]))
      · exact Or.inr (Or.inr (by simp [strLtb, hab, h1]))
    · exact Or.inr (Or.inr (by simp [strLtb, h, Nat.lt_asymm h]))

theorem strLtb_trans : ∀ as bs cs : List Char,
    strLtb as bs = true → strLtb bs cs = true → strLtb as cs = true
  | [], [], _, h1, _ => by simp [strLtb] at h1
  | [], _ :: _, [], _, h2 => by simp [strLtb] at h2
  | [], _ :: _, _ :: _, _, _ => rfl
  | _ :: _, [], _, h1, _ => by simp [strLtb] at h1
  | _ :: _, _ :: _, [], _, h2 => by simp [strLtb] at h2
  | a :: as, b :: bs, c :: cs, h1, h2 => by
    simp only [strLtb] at h1 h2 ⊢
    by_cases hba : b.toNat < a.toNat
    · have hab : ¬ a.toNat < b.toNat := by omega
      simp [hab, hba] at h1
    by_cases hcb : c.toNat < b.toNat
    · have hbc : ¬ b.toNat < c.toNat := by omega
      simp [hbc, hcb] at h2
    by_cases hab : a.toNat < b.toNat
    · have hac : a.toNat < c.toNat := by omega
      simp [hac]
    · by_cases hbc : b.toNat < c.toNat
      · have hac : a.toNat < c.toNat := by omega
        simp [hac]
      · have hac : ¬ a.toNat < c.toNat := by omega
        have hca : ¬ c.toNat < a.toNat := by omega
        simp only [hab, hba, if_false] at h1
        simp only [hbc, hcb, if_false] at h2
        simp only [hac, hca, if_false]
        exact strLtb_trans as bs cs h1 h2

/-- Python tuple ordering on `(symbol, exponent)` pairs: symbol primary
(lexicographic code-point order), exponent secondary. -/
def pairRel (a b : String × ℚ) : Prop :=
  strLtb a.1.data b.1.data = true ∨ (a.1 = b.1 ∧ a.2 ≤ b.2)

instance : DecidableRel pairRel := fun a b => by
  unfold pairRel; infer_instance

instance : IsTotal (String × ℚ) pairRel := by
  constructor
  intro a b
  rcases strLtb_trichotomy a.1.data b.1.data with h | h | h
  · exact Or.inl (Or.inl h)
  · have hs : a.1 = b.1 := congrArg String.mk h
    rcases le_total a.2 b.2 with h2 | h2
    · exact Or.inl (Or.inr ⟨hs, h2⟩)
    · exact Or.inr (Or.inr ⟨hs.symm, h2⟩)
  · exact Or.inr (Or.inl h)

instance : IsTrans (String × ℚ) pairRel := by
  constructor
  intro a b c hab hbc
  rcases hab with h1 | ⟨h1, h1'⟩ <;> rcases hbc with h2 | ⟨h2, h2'⟩
  · exact Or.inl (strLtb_trans _ _ _ h1 h2)
  · exact Or.inl (h2 ▸ h1)
  · exact Or.inl (h1 ▸ h2)
  · exact Or.inr ⟨h1.trans h2, h1'.trans h2'⟩

/-- The partition of the `for key, value in items` loop of `formatter`:
each term goes to the positive or the negative list, rendered either as the
bare symbol or via `power_fmt`, following the source's branch order
(`value == 1` / `value > 0` / `value == -1 and as_ratio` / `else`). -/
def buckets (as_ratio : Bool) (power_fmt : String) (fn : ℚ → String) :
    List (String × ℚ) → List String × List String
  | [] => ([], [])
  | (k, v) :: rest =>
    let pn := buckets as_ratio power_fmt fn rest
    if v = 1 then (k :: pn.1, pn.2)
    else if 0 < v then (pyFormat power_fmt [k, fn v] :: pn.1, pn.2)
    else if v = -1 ∧ as_ratio = true then (pn.1, k :: pn.2)
    else (pn.1, pyFormat power_fmt [k, fn v] :: pn.2)

/-- Models the source's default exponent renderer `"\x7b:n\x7d".format` at the
integral exponents the theorems evaluate it on: an integral rational prints as
its integer numerator.  (For non-integral exponents Python's `:n` prints a
decimal expansion; no theorem below evaluates the default renderer there.) -/
def default_exp_call (q : ℚ) : String :=
  if q.den = 1 then toString q.num else toString q.num ++ "/" ++ toString q.den

/-- `formatter` from the source: renders a list of `(symbol, exponent)` pairs.
Arguments are positional, in the source's order, with no defaults. -/
def formatter (items : List (String × ℚ)) (as_ratio single_denominator : Bool)
    (product_fmt division_fmt power_fmt parentheses_fmt : String)
    (exp_call : ℚ → String) (sort : Bool) : String :=
  let items' := if sort then List.insertionSort pairRel items else items
  if items' = [] then ""
  else
    let fn : ℚ → String := if as_ratio then fun x => exp_call |x| else exp_call
    let pn := buckets as_ratio power_fmt fn items'
    if as_ratio = false then
      pyJoin product_fmt (pn.1 ++ pn.2)
    else
      let pos_ret := if pyJoin product_fmt pn.1 = "" then "1" else pyJoin product_fmt pn.1
      if pn.2 = [] then pos_ret
      else
        let neg_ret :=
          if single_denominator then
            if 1 < pn.2.length then pyFormat parentheses_fmt [pyJoin product_fmt pn.2]
            else pyJoin product_fmt pn.2
          else pyJoin division_fmt pn.2
        pyJoin division_fmt [pos_ret, neg_ret]

/-- `sorted(keys, key=len, reverse=True)`: stable sort of the registry keys,
longest first (equal lengths keep dictionary order). -/
def flag_order (a b : String) : Prop := b.length ≤ a.length

instance : DecidableRel flag_order := fun _ _ => Nat.decLe _ _

/-- The ordered pattern list both flag operations use: the registry keys,
longest first, followed by the reserved separator marker `"~"`. -/
def flag_pats (flags : List String) : List (List Char) :=
  (List.insertionSort flag_order flags).map String.data ++ [['~']]

/-- Python `spec.replace(pat, "")` for a non-empty `pat`: delete every
(non-overlapping, left-to-right) occurrence.  The fuel is the length of the
string, which bounds the number of steps. -/
def removeAllAux (pat : List Char) : Nat → List Char → List Char
  | _, [] => []
  | 0, s => s
  | fuel + 1, c :: cs =>
    if pat ≠ [] ∧ pat.isPrefixOf (c :: cs) then
      removeAllAux pat fuel ((c :: cs).drop pat.length)
    else
      c :: removeAllAux pat fuel cs

/-- The loop of `remove_custom_flags`: `for flag in sorted(...) + ["~"]:
if flag: spec = spec.replace(flag, "")`. -/
def remove_pats : List (List Char) → List Char → List Char
  | [], s => s
  | p :: ps, s => remove_pats ps (if p = [] then s else removeAllAux p s.length s)

/-- `remove_custom_flags(spec)` from the source. -/
def remove_custom_flags (flags : List String) (spec : String) : String :=
  String.mk (remove_pats (flag_pats flags) spec.data)

/-- `re.findall` over the alternation of the literal patterns in `pats`
(ordered alternatives, leftmost match, scan resumes after each match;
a zero-width match contributes nothing and the scan advances one character,
which is Python's `findall` behaviour for an empty alternative). -/
def extractAux (pats : List (List Char)) : Nat → List Char → List Char
  | _, [] => []
  | 0, _ => []
  | fuel + 1, c :: cs =>
    match pats.find? (fun p => p.isPrefixOf (c :: cs)) with
    | some p =>
      if p = [] then extractAux pats fuel cs
      else p ++ extractAux pats fuel ((c :: cs).drop p.length)
    | none => extractAux pats fuel cs

/-- `extract_custom_flags(spec)` from the source: concatenation of all flag
matches found left to right, longest-first alternation. -/
def extract_custom_flags (flags : List String) (spec : String) : String :=
  if spec = "" then ""
  else String.mk (extractAux (flag_pats flags) spec.data.length spec.data)

/-- `_BASIC_TYPES = frozenset("bcdeEfFgGnosxX%uS")`. -/
def basic_types : List Char := "bcdeEfFgGnosxX%uS".data

/-- The loop of `_parse_spec`: scan the reversed spec, skipping `~` and basic
type letters, recording at most one single-character registry flag (a second
one raises), failing on any other alphabetic character, and stopping at the
first other non-alphabetic character.  `result` is the accumulator variable
of the source. -/
def parse_spec_aux (flags : List String) : List Char → String → Except String String
  | [], result => Except.ok result
  | c :: rest, result =>
    if c = '~' ∨ c ∈ basic_types then parse_spec_aux flags rest result
    else if String.singleton c ∈ flags ∨ c = '~' then
      if result ≠ "" then Except.error "expected \x27:\x27 after format specifier"
      else parse_spec_aux flags rest (String.singleton c)
    else if c.isAlpha then
      Except.error ("Unknown conversion specified " ++ String.singleton c)
    else Except.ok result

/-- `_parse_spec(spec)` from the source; `Except.error` models a raised
`ValueError` carrying the same message. -/
def parse_spec (flags : List String) (spec : String) : Except String String :=
  parse_spec_aux flags spec.data.reverse ""

deriving instance DecidableEq for Except

/-- The three scan outcomes named by the specification. -/
inductive ScanResult where
  | ok : String → ScanResult
  | secondFlag : ScanResult
  | badAlpha : Char → ScanResult
deriving DecidableEq

/-- Modelled from the spec's words (`validate_basic_type_suffix`): scanning a
spec from the end, skip members of the basic-type alphabet and the separator
marker, record a recognized custom flag, report a second flag met while one
is already recorded, report an alphabetic character that is none of these,
and stop successfully at any other character. -/
def spec_scan (flags : List String) : List Char → String → ScanResult
  | [], found => ScanResult.ok found
  | c :: rest, found =>
    if c = '~' ∨ c ∈ basic_types then spec_scan flags rest found
    else if String.singleton c ∈ flags ∨ c = '~' then
      if found ≠ "" then ScanResult.secondFlag
      else spec_scan flags rest (String.singleton c)
    else if c.isAlpha then ScanResult.badAlpha c
    else ScanResult.ok found

/-- The error/result each scan outcome corresponds to in the source. -/
def scan_to_except : ScanResult → Except String String
  | ScanResult.ok v => Except.ok v
  | ScanResult.secondFlag => Except.error "expected \x27:\x27 after format specifier"
  | ScanResult.badAlpha c => Except.error ("Unknown conversion specified " ++ String.singleton c)

/-- The two deprecation diagnostics `split_format` can emit: "The given
format spec does not contain a unit formatter. ..." and "... does not contain
a magnitude formatter. ...". -/
inductive SplitWarning where
  | noUnitFormatter : SplitWarning
  | noMagnitudeFormatter : SplitWarning
deriving DecidableEq

/-- `split_format(spec, default, separate_format_defaults)` from the source.
The tri-state flag is `Option Bool` (`some true` / `some false` / `none` for
Python `True` / `False` / `None`); the emitted deprecation warnings are
returned alongside the pair, in emission order. -/
def split_format (flags : List String) (spec default : String)
    (separate_format_defaults : Option Bool) : (String × String) × List SplitWarning :=
  let mspec := remove_custom_flags flags spec
  let uspec := extract_custom_flags flags spec
  let default_mspec := remove_custom_flags flags default
  let default_uspec := extract_custom_flags flags default
  if separate_format_defaults = some false ∨ separate_format_defaults = none then
    if spec ≠ "" ∧ separate_format_defaults = none then
      ((mspec, uspec),
        (if uspec = "" ∧ default_uspec ≠ "" then [SplitWarning.noUnitFormatter] else [])
          ++ (if mspec = "" ∧ default_mspec ≠ "" then [SplitWarning.noMagnitudeFormatter] else []))
    else if spec = "" then ((default_mspec, default_uspec), [])
    else ((mspec, uspec), [])
  else
    ((if mspec = "" then default_mspec else mspec,
      if uspec = "" then default_uspec else uspec), [])

/-- `join_mu(joint_fstring, mstr, ustr)` from the source: a unit string that
begins with "1 / " is joined with its first two characters dropped
(`ustr[2:]`).  Prefix test and slicing are on code points, as in Python. -/
def join_mu (joint_fstring mstr ustr : String) : String :=
  if "1 / ".data.isPrefixOf ustr.data then
    pyFormat joint_fstring [mstr, String.mk (ustr.data.drop 2)]
  else pyFormat joint_fstring [mstr, ustr]

/-- The rational one half, as an explicit normalized fraction (using `/` on
`ℚ` would not evaluate inside `decide`). -/
def half : ℚ := ⟨1, 2, by norm_num, by norm_num⟩

theorem parse_spec_aux_eq_scan (flags : List String) : ∀ (rcs : List Char) (r : String),
    parse_spec_aux flags rcs r = scan_to_except (spec_scan flags rcs r)
  | [], _ => rfl
  | c :: rest, r => by
    simp only [parse_spec_aux, spec_scan]
    split_ifs <;> first
      | rfl
      | exact parse_spec_aux_eq_scan flags rest _

theorem pyJoin_sep (fmt : String) (h : hasJoinToken fmt.data = false) (l : List String) :
    pyJoin fmt l = String.intercalate fmt l := by
  unfold pyJoin
  split_ifs with h1 h2
  · subst h1; rfl
  · rw [h] at h2; cases h2
  · rfl

theorem pyFormat_paren (s : String) : pyFormat "(\x7b0\x7d)" [s] = "(" ++ s ++ ")" := by
  cases s
  rfl

theorem intercalate_pair (s a b : String) : String.intercalate s [a, b] = a ++ s ++ b := rfl

theorem unknown_msg_head (c : Char) :
    ("Unknown conversion specified " ++ String.singleton c).data.head? = some 'U' := rfl

theorem parse_spec_msgs_ne (c : Char) :
    "expected \x27:\x27 after format specifier"
      ≠ "Unknown conversion specified " ++ String.singleton c := by
  intro h
  have h2 := congrArg List.head? (congrArg String.data h)
  rw [unknown_msg_head] at h2
  exact absurd h2 (by decide)

theorem unknown_msg_inj {c c' : Char}
    (h : "Unknown conversion specified " ++ String.singleton c'
        = "Unknown conversion specified " ++ String.singleton c) : c' = c := by
  have h2 := congrArg List.getLast? (congrArg String.data h)
  simp only [String.data_append] at h2
  have e1 : (String.singleton c').data = [c'] := rfl
  have e2 : (String.singleton c).data = [c] := rfl
  rw [e1, e2, List.getLast?_concat, List.getLast?_concat] at h2
  exact Option.some.inj h2

/-- C5: `join_mu` drops the two characters "1 " from a unit string that
begins with "1 / " and applies the template to the magnitude and that trimmed
string; any other unit string is passed to the template unchanged; in
particular `join_mu("\x7b\x7d \x7b\x7d", "5", "1 / s") = "5 / s"` and
`join_mu("\x7b\x7d \x7b\x7d", "5", "m / s") = "5 m / s"`. -/
theorem C5_join_mu :
    (∀ (template m w : String),
      join_mu template m ("1 / " ++ w) = pyFormat template [m, "/ " ++ w]) ∧
    (∀ (template m u : String), ¬ ("1 / ".data.isPrefixOf u.data = true) →
      join_mu template m u = pyFormat template [m, u]) ∧
    join_mu "\x7b\x7d \x7b\x7d" "5" "1 / s" = "5 / s" ∧
    join_mu "\x7b\x7d \x7b\x7d" "5" "m / s" = "5 m / s" := by
  refine ⟨?_, ?_, by decide, by decide⟩
  · intro t m w
    cases w with
    | mk l =>
      unfold join_mu
      rw [if_pos]
      · rfl
      · show "1 / ".data.isPrefixOf ("1 / " ++ String.mk l).data = true
        rw [String.data_append]
        simp [List.isPrefixOf]
  · intro t m u h
    unfold join_mu
    rw [if_neg h]

/-- C5 witness: the hypothesis of the second conjunct discharged at the
concrete input `"m / s"`, which does not begin with "1 / ". -/
theorem C5_witness : join_mu "\x7b\x7d \x7b\x7d" "5" "m / s" = pyFormat "\x7b\x7d \x7b\x7d" ["5", "m / s"] :=
  C5_join_mu.2.1 "\x7b\x7d \x7b\x7d" "5" "m / s" (by decide)

/-- C6 counterexample: with a registry recognizing the flag "P", the spec
"PP" makes `_parse_spec` meet a second flag character before any separator,
and the `ValueError` it raises carries the message
"expected \x27:\x27 after format specifier" — not the fixed text
"expected separator after format specifier." stated by the claim. -/
theorem C6_counterexample :
    parse_spec ["P"] "PP" = Except.error "expected \x27:\x27 after format specifier" ∧
    "expected \x27:\x27 after format specifier" ≠ "expected separator after format specifier." :=
  ⟨by decide, by decide⟩

/-- C6 amended: when the end-scan meets a second custom-flag character
before a separator, `_parse_spec` fails with a `ValueError` surfaced to the
caller whose message is the fixed text
"expected \x27:\x27 after format specifier". -/
theorem C6_amended : ∀ (flags : List String) (spec : String),
    spec_scan flags spec.data.reverse "" = ScanResult.secondFlag →
    parse_spec flags spec = Except.error "expected \x27:\x27 after format specifier" := by
  intro flags spec h
  rw [parse_spec, parse_spec_aux_eq_scan, h]
  rfl

/-- C6 witness: `C6_amended` applied at the registry `["P"]` and spec "PP". -/
theorem C6_witness :
    parse_spec ["P"] "PP" = Except.error "expected \x27:\x27 after format specifier" :=
  C6_amended ["P"] "PP" (by decide)

/-- C7 counterexample: with a registry recognizing the flag "L", every
trailing alphabetic character of the spec "LL" is a recognized custom flag
and they form a single contiguous flag group, yet validation does not
succeed: it raises the misplaced-flag error. -/
theorem C7_counterexample :
    parse_spec ["L"] "LL" = Except.error "expected \x27:\x27 after format specifier" := by
  decide

/-- C7 amended: `_parse_spec` raises the malformed-specifier error naming
character `c` exactly when the end-scan (skipping basic-type letters, the
separator marker and recognized custom flags) reaches `c`, an alphabetic
character that is none of these; and whenever the scan completes with at
most one custom-flag character, validation succeeds without raising. -/
theorem C7_amended : ∀ (flags : List String) (spec : String),
    (∀ c : Char,
      parse_spec flags spec = Except.error ("Unknown conversion specified " ++ String.singleton c)
        ↔ spec_scan flags spec.data.reverse "" = ScanResult.badAlpha c) ∧
    ((∃ f, spec_scan flags spec.data.reverse "" = ScanResult.ok f) →
      ∃ v, parse_spec flags spec = Except.ok v) := by
  intro flags spec
  constructor
  · intro c
    rw [parse_spec, parse_spec_aux_eq_scan]
    cases h : spec_scan flags spec.data.reverse "" with
    | ok v =>
      simp only [scan_to_except]
      constructor
      · intro h2; cases h2
      · intro h2; cases h2
    | secondFlag =>
      simp only [scan_to_except]
      constructor
      · intro h2
        exact absurd (Except.error.inj h2) (parse_spec_msgs_ne c)
      · intro h2; cases h2
    | badAlpha c' =>
      simp only [scan_to_except]
      constructor
      · intro h2
        rw [unknown_msg_inj (Except.error.inj h2)]
      · intro h2
        rw [ScanResult.badAlpha.inj h2]
  · rintro ⟨f, h⟩
    rw [parse_spec, parse_spec_aux_eq_scan, h]
    exact ⟨f, rfl⟩

/-- C7 witness: `C7_amended` applied with the registry `["P"]`: the spec
"zW" raises the malformed error naming 'W' (as the scan reaches 'W'), and
the spec ".3fP" (one flag character, then basic-type characters, then a
scan-stopping '.') validates successfully. -/
theorem C7_witness :
    parse_spec ["P"] "zW" = Except.error ("Unknown conversion specified " ++ String.singleton 'W') ∧
    (∃ v, parse_spec ["P"] ".3fP" = Except.ok v) :=
  ⟨((C7_amended ["P"] "zW").1 'W').mpr (by decide),
   (C7_amended ["P"] ".3fP").2 ⟨"P", by decide⟩⟩

/-- C4 counterexample: a term with exponent 1/2 (strictly between 0 and 1)
is placed in the POSITIVE bucket, rendered with `power_fmt` — the negative
bucket stays empty — because the source's second branch is `value > 0`, not
`value > 1`. -/
theorem C4_counterexample :
    ((0:ℚ) < half ∧ half < 1) ∧
    buckets true "\x7b\x7d ** \x7b\x7d" (fun _ => "E") [("m", half)] = (["m ** E"], []) :=
  ⟨by decide, by decide⟩

/-- C4 amended: the bucket assignment is: exponent == 1 → positive bucket as
a bare symbol; exponent > 0 and ≠ 1 → positive bucket rendered with
`power_fmt` (so 0 < exponent < 1 is positive, not negative); exponent == -1
with `as_ratio` → negative bucket as a bare symbol; every remaining negative
exponent → negative bucket rendered with `power_fmt`; exponent == 0 →
negative bucket rendered with `power_fmt`. -/
theorem C4_amended : ∀ (ratio : Bool) (pf : String) (fn : ℚ → String) (k : String) (v : ℚ)
    (rest : List (String × ℚ)),
    (v = 1 → buckets ratio pf fn ((k, v) :: rest)
      = (k :: (buckets ratio pf fn rest).1, (buckets ratio pf fn rest).2)) ∧
    (0 < v → v ≠ 1 → buckets ratio pf fn ((k, v) :: rest)
      = (pyFormat pf [k, fn v] :: (buckets ratio pf fn rest).1, (buckets ratio pf fn rest).2)) ∧
    (v = -1 → ratio = true → buckets ratio pf fn ((k, v) :: rest)
      = ((buckets ratio pf fn rest).1, k :: (buckets ratio pf fn rest).2)) ∧
    (v < 0 → ¬ (v = -1 ∧ ratio = true) → buckets ratio pf fn ((k, v) :: rest)
      = ((buckets ratio pf fn rest).1, pyFormat pf [k, fn v] :: (buckets ratio pf fn rest).2)) ∧
    (v = 0 → buckets ratio pf fn ((k, v) :: rest)
      = ((buckets ratio pf fn rest).1, pyFormat pf [k, fn v] :: (buckets ratio pf fn rest).2)) := by
  intro ratio pf fn k v rest
  refine ⟨?_, ?_, ?_, ?_, ?_⟩
  · intro h; subst h; simp [buckets]
  · intro h1 h2; simp [buckets, h1, h2]
  · intro h1 h2; subst h1; subst h2; norm_num [buckets]
  · intro h1 h2
    have hv1 : v ≠ 1 := by intro e; rw [e] at h1; norm_num at h1
    have hv0 : ¬ 0 < v := by linarith
    simp [buckets, hv1, hv0, h2]
  · intro h; subst h; norm_num [buckets]

/-- C4 witness: each case of `C4_amended` applied at a concrete term;
the second packet shows the half exponent landing in the positive bucket. -/
theorem C4_witness :
    buckets true "\x7b\x7d ** \x7b\x7d" default_exp_call [("m", (1:ℚ))] = (["m"], []) ∧
    buckets true "\x7b\x7d ** \x7b\x7d" (fun _ => "E") [("x", half)] = (["x ** E"], []) ∧
    buckets true "\x7b\x7d ** \x7b\x7d" default_exp_call [("s", (-1:ℚ))] = ([], ["s"]) ∧
    buckets false "\x7b\x7d ** \x7b\x7d" default_exp_call [("s", (-2:ℚ))] = ([], ["s ** -2"]) ∧
    buckets true "\x7b\x7d ** \x7b\x7d" default_exp_call [("m", (0:ℚ))] = ([], ["m ** 0"]) :=
  ⟨(C4_amended true "\x7b\x7d ** \x7b\x7d" default_exp_call "m" 1 []).1 rfl,
   (C4_amended true "\x7b\x7d ** \x7b\x7d" (fun _ => "E") "x" half []).2.1 (by decide) (by decide),
   (C4_amended true "\x7b\x7d ** \x7b\x7d" default_exp_call "s" (-1) []).2.2.1 rfl rfl,
   (C4_amended false "\x7b\x7d ** \x7b\x7d" default_exp_call "s" (-2) []).2.2.2.1 (by norm_num)
     (by simp),
   (C4_amended true "\x7b\x7d ** \x7b\x7d" default_exp_call "m" 0 []).2.2.2.2 rfl⟩

/-- C10: a term with exponent exactly 0 goes to the negative bucket rendered
with `power_fmt` applied to the symbol and the rendered 0, and with the
default configuration `formatter([("m", 0)])` returns "1 / m ** 0". -/
theorem C10_zero_exponent :
    (∀ (ratio : Bool) (pf : String) (fn : ℚ → String) (k : String)
      (rest : List (String × ℚ)),
      buckets ratio pf fn ((k, (0:ℚ)) :: rest)
        = ((buckets ratio pf fn rest).1, pyFormat pf [k, fn 0] :: (buckets ratio pf fn rest).2)) ∧
    formatter [("m", (0:ℚ))] true false " * " " / " "\x7b\x7d ** \x7b\x7d" "(\x7b0\x7d)"
      default_exp_call true = "1 / m ** 0" := by
  refine ⟨?_, by decide⟩
  intro ratio pf fn k rest
  norm_num [buckets]

theorem remove_pats_nil : ∀ ps : List (List Char), remove_pats ps [] = []
  | [] => rfl
  | p :: ps => by
    show remove_pats ps (if p = [] then [] else removeAllAux p ([] : List Char).length []) = []
    have h : (if p = [] then ([] : List Char) else removeAllAux p ([] : List Char).length []) = [] := by
      split <;> rfl
    rw [h]
    exact remove_pats_nil ps

theorem remove_custom_flags_empty (flags : List String) : remove_custom_flags flags "" = "" := by
  have h : ("" : String).data = [] := rfl
  rw [remove_custom_flags, h, remove_pats_nil]

theorem extract_custom_flags_empty (flags : List String) : extract_custom_flags flags "" = "" := rfl

/-- C1 counterexample: with a registry recognizing "P", spec "P" and default
"d", the strict-silent policy (`separate_format_defaults = False`) returns
`("", "P")` — no fallback of the empty magnitude field — while the merge
policy (`True`) returns `("d", "P")`; the two policies do not return the
same pair (though neither emits diagnostics). -/
theorem C1_counterexample :
    split_format ["P"] "P" "d" (some false) = (("", "P"), []) ∧
    split_format ["P"] "P" "d" (some true) = (("d", "P"), []) ∧
    ("" : String) ≠ "d" :=
  ⟨by decide, by decide, by decide⟩

/-- C1 amended: the strict-silent policy never emits diagnostics, and it
agrees with the merge policy when the spec is empty (both then return the
default's pair); for every non-empty spec it returns the raw
(magnitude, unit) extraction with no fallback, and its result differs from
the merge policy's exactly when an extracted field is empty while the
corresponding default field is non-empty. -/
theorem C1_amended : ∀ (flags : List String) (spec default : String),
    (split_format flags spec default (some false)).2 = [] ∧
    (spec = "" →
      split_format flags spec default (some false)
        = split_format flags spec default (some true)) ∧
    (spec ≠ "" →
      (split_format flags spec default (some false)).1
        = (remove_custom_flags flags spec, extract_custom_flags flags spec)) ∧
    (spec ≠ "" →
      ((split_format flags spec default (some false)).1
          ≠ (split_format flags spec default (some true)).1 ↔
        ((remove_custom_flags flags spec = "" ∧ remove_custom_flags flags default ≠ "") ∨
         (extract_custom_flags flags spec = "" ∧ extract_custom_flags flags default ≠ "")))) := by
  intro flags spec default
  have hF : ∀ _ : spec ≠ "", (split_format flags spec default (some false)).1
      = (remove_custom_flags flags spec, extract_custom_flags flags spec) := by
    intro h
    simp only [split_format]
    rw [if_pos (Or.inl trivial), if_neg (fun h2 => by cases h2.2), if_neg h]
  have hT : (split_format flags spec default (some true)).1
      = (if remove_custom_flags flags spec = "" then remove_custom_flags flags default
          else remove_custom_flags flags spec,
         if extract_custom_flags flags spec = "" then extract_custom_flags flags default
          else extract_custom_flags flags spec) := by
    simp only [split_format]
    rw [if_neg (by simp)]
  refine ⟨?_, ?_, hF, ?_⟩
  · simp only [split_format]
    split_ifs <;> simp_all
  · intro h
    subst h
    simp [split_format, remove_custom_flags_empty, extract_custom_flags_empty]
  · intro h
    rw [hF h, hT]
    by_cases hm : remove_custom_flags flags spec = "" <;>
      by_cases hu : extract_custom_flags flags spec = "" <;>
      (simp [hm, hu, Prod.ext_iff, eq_comm]; try tauto)

/-- C1 witness: `C1_amended` applied with the registry `["P"]`: at the empty
spec (agreement with merge, hypothesis discharged) and at the non-empty spec
"P" with default "d" (raw extraction returned; the results differ because
the extracted magnitude field is empty while the default's is "d"). -/
theorem C1_witness :
    (split_format ["P"] "" "dP" (some false)).2 = [] ∧
    split_format ["P"] "" "dP" (some false) = split_format ["P"] "" "dP" (some true) ∧
    (split_format ["P"] "P" "d" (some false)).1
        = (remove_custom_flags ["P"] "P", extract_custom_flags ["P"] "P") ∧
    ((split_format ["P"] "P" "d" (some false)).1
        ≠ (split_format ["P"] "P" "d" (some true)).1 ↔
      ((remove_custom_flags ["P"] "P" = "" ∧ remove_custom_flags ["P"] "d" ≠ "") ∨
       (extract_custom_flags ["P"] "P" = "" ∧ extract_custom_flags ["P"] "d" ≠ ""))) :=
  ⟨(C1_amended ["P"] "" "dP").1, (C1_amended ["P"] "" "dP").2.1 rfl,
   (C1_amended ["P"] "P" "d").2.2.1 (by decide),
   (C1_amended ["P"] "P" "d").2.2.2 (by decide)⟩

/-- C2 counterexample: with a registry recognizing "P", the non-empty spec
"d" and default "P" under the strict-with-warning policy
(`separate_format_defaults = None`): the unit field extracted from the spec
is empty and the default's unit field is "P", so the deprecation diagnostic
is emitted — but the returned unit field is `""`, not the default's "P":
the claimed fallback does not happen. -/
theorem C2_counterexample :
    split_format ["P"] "d" "P" none = (("d", ""), [SplitWarning.noUnitFormatter]) ∧
    ("" : String) ≠ "P" :=
  ⟨by decide, by decide⟩

/-- C2 amended: under the strict-with-warning policy with a non-empty spec,
a deprecation diagnostic is emitted for exactly each field (unit, magnitude)
that is empty in the spec's extraction while non-empty in the default's —
but the returned pair is the spec's raw extraction: the empty field does NOT
fall back to the default's value inside `split_format`. -/
theorem C2_amended : ∀ (flags : List String) (spec default : String), spec ≠ "" →
    (split_format flags spec default none).1
        = (remove_custom_flags flags spec, extract_custom_flags flags spec) ∧
    (SplitWarning.noUnitFormatter ∈ (split_format flags spec default none).2 ↔
      (extract_custom_flags flags spec = "" ∧ extract_custom_flags flags default ≠ "")) ∧
    (SplitWarning.noMagnitudeFormatter ∈ (split_format flags spec default none).2 ↔
      (remove_custom_flags flags spec = "" ∧ remove_custom_flags flags default ≠ "")) := by
  intro flags spec default h
  simp only [split_format]
  rw [if_pos (Or.inr trivial), if_pos ⟨h, trivial⟩]
  refine ⟨rfl, ?_, ?_⟩ <;> split_ifs <;> simp_all

/-- C2 witness: `C2_amended` applied at the registry `["P"]`, spec "d" and
default "P", with its non-emptiness hypothesis discharged. -/
theorem C2_witness :
    (split_format ["P"] "d" "P" none).1
        = (remove_custom_flags ["P"] "d", extract_custom_flags ["P"] "d") ∧
    (SplitWarning.noUnitFormatter ∈ (split_format ["P"] "d" "P" none).2 ↔
      (extract_custom_flags ["P"] "d" = "" ∧ extract_custom_flags ["P"] "P" ≠ "")) ∧
    (SplitWarning.noMagnitudeFormatter ∈ (split_format ["P"] "d" "P" none).2 ↔
      (remove_custom_flags ["P"] "d" = "" ∧ remove_custom_flags ["P"] "P" ≠ "")) :=
  C2_amended ["P"] "d" "P" (by decide)

/-- C9: with `sort` true the formatter's output on any item list equals its
output on the same list pre-sorted by the tuple ordering (symbol primary,
exponent secondary); in particular `[("s",-1),("m",1)]` formats to "m / s",
the same result as the pre-sorted `[("m",1),("s",-1)]`. -/
theorem C9_sort :
    (∀ (items : List (String × ℚ)) (ratio sd : Bool) (pf df pwf parf : String)
      (ec : ℚ → String),
      formatter items ratio sd pf df pwf parf ec true
        = formatter (List.insertionSort pairRel items) ratio sd pf df pwf parf ec true) ∧
    formatter [("s",(-1:ℚ)),("m",(1:ℚ))] true false " * " " / " "\x7b\x7d ** \x7b\x7d"
      "(\x7b0\x7d)" default_exp_call true = "m / s" ∧
    formatter [("s",(-1:ℚ)),("m",(1:ℚ))] true false " * " " / " "\x7b\x7d ** \x7b\x7d"
        "(\x7b0\x7d)" default_exp_call true
      = formatter [("m",(1:ℚ)),("s",(-1:ℚ))] true false " * " " / " "\x7b\x7d ** \x7b\x7d"
        "(\x7b0\x7d)" default_exp_call true := by
  refine ⟨?_, by decide, by decide⟩
  intro items ratio sd pf df pwf parf ec
  have h : List.insertionSort pairRel (List.insertionSort pairRel items)
      = List.insertionSort pairRel items :=
    (List.sorted_insertionSort pairRel items).insertionSort_eq
  simp only [formatter]
  rw [h]
  simp only [if_true]

/-- C8: with `as_ratio` and `single_denominator` and the default product,
division and parentheses formats, the negative terms are joined with the
product format and wrapped in parentheses exactly when the negative bucket
has more than one entry; `[("m",1),("s",-1),("kg",-1)]` (order preserved,
`sort` false) formats to "m / (s * kg)". -/
theorem C8_single_denominator :
    (∀ (items : List (String × ℚ)) (ec : ℚ → String),
      items ≠ [] →
      (buckets true "\x7b\x7d ** \x7b\x7d" (fun x => ec |x|) items).2 ≠ [] →
      formatter items true true " * " " / " "\x7b\x7d ** \x7b\x7d" "(\x7b0\x7d)" ec false =
        (if String.intercalate " * "
              (buckets true "\x7b\x7d ** \x7b\x7d" (fun x => ec |x|) items).1 = ""
          then "1"
          else String.intercalate " * "
            (buckets true "\x7b\x7d ** \x7b\x7d" (fun x => ec |x|) items).1)
        ++ " / " ++
        (if 1 < (buckets true "\x7b\x7d ** \x7b\x7d" (fun x => ec |x|) items).2.length
          then "(" ++ String.intercalate " * "
            (buckets true "\x7b\x7d ** \x7b\x7d" (fun x => ec |x|) items).2 ++ ")"
          else String.intercalate " * "
            (buckets true "\x7b\x7d ** \x7b\x7d" (fun x => ec |x|) items).2)) ∧
    formatter [("m",(1:ℚ)),("s",(-1:ℚ)),("kg",(-1:ℚ))] true true " * " " / "
      "\x7b\x7d ** \x7b\x7d" "(\x7b0\x7d)" default_exp_call false = "m / (s * kg)" := by
  refine ⟨?_, by decide⟩
  intro items ec h1 h2
  have hj1 : hasJoinToken (" * " : String).data = false := by decide
  have hj2 : hasJoinToken (" / " : String).data = false := by decide
  simp only [formatter, if_false, Bool.false_eq_true, if_true, Bool.true_eq_false]
  rw [if_neg h1, if_neg h2]
  rw [pyJoin_sep _ hj1, pyJoin_sep _ hj1, pyJoin_sep _ hj2, intercalate_pair, pyFormat_paren]

/-- C8 witness: `C8_single_denominator` applied at the two-denominator item
list `[("a",-1),("b",-1)]` with both hypotheses discharged; the result shows
the parentheses appearing because the denominator has two terms. -/
theorem C8_witness :
    formatter [("a",(-1:ℚ)),("b",(-1:ℚ))] true true " * " " / " "\x7b\x7d ** \x7b\x7d"
      "(\x7b0\x7d)" default_exp_call false = "1 / (a * b)" :=
  C8_single_denominator.1 [("a",(-1:ℚ)),("b",(-1:ℚ))] default_exp_call (by decide) (by decide)

theorem removeAllAux_single (a : Char) : ∀ (fuel : Nat) (s : List Char), s.length ≤ fuel →
    removeAllAux [a] fuel s = s.filter (fun c => !(c == a)) := by
  intro fuel
  induction fuel with
  | zero =>
    intro s h
    cases s with
    | nil => rfl
    | cons c cs => simp at h
  | succ n ih =>
    intro s h
    cases s with
    | nil => rfl
    | cons c cs =>
      simp only [removeAllAux, List.length_cons] at *
      by_cases hc : a = c
      · rw [if_pos ⟨by simp, by simp [List.isPrefixOf, hc]⟩]
        subst hc
        rw [List.filter_cons]
        simp only [beq_self_eq_true, Bool.not_true, if_false]
        exact ih cs (by omega)
      · have hpre : ([a].isPrefixOf (c :: cs)) = false := by
          simp [List.isPrefixOf]
          intro e
          exact absurd e hc
        rw [if_neg (by simp [hpre])]
        rw [List.filter_cons]
        have hca : (c == a) = false := by
          simp
          intro e
          exact hc e.symm
        rw [hca]
        simp only [Bool.not_false, if_true]
        rw [ih cs (by omega)]

theorem remove_pats_single : ∀ (pats : List (List Char)), (∀ p ∈ pats, ∃ a, p = [a]) →
    ∀ s : List Char,
    remove_pats pats s = s.filter (fun c => !(pats.any (fun p => p == [c]))) := by
  intro pats
  induction pats with
  | nil =>
    intro _ s
    simp [remove_pats]
  | cons p ps ih =>
    intro h s
    obtain ⟨a, rfl⟩ := h p (by simp)
    simp only [remove_pats]
    rw [if_neg (by simp)]
    rw [removeAllAux_single a s.length s le_rfl]
    rw [ih (fun q hq => h q (by simp [hq])) _]
    rw [List.filter_filter]
    congr 1
    funext c
    by_cases hc : c = a
    · simp [hc]
    · have h2 : (a == c) = false := by
        simp
        exact fun e => hc e.symm
      simp [hc, h2, Bool.and_comm]

theorem extractAux_none : ∀ (pats : List (List Char)) (fuel : Nat) (s : List Char),
    (∀ p ∈ pats, ∃ a, p = [a] ∧ a ∉ s) → extractAux pats fuel s = [] := by
  intro pats fuel
  induction fuel with
  | zero =>
    intro s _
    cases s <;> rfl
  | succ n ih =>
    intro s h
    cases s with
    | nil => rfl
    | cons c cs =>
      have hf : pats.find? (fun p => p.isPrefixOf (c :: cs)) = none := by
        rw [List.find?_eq_none]
        intro p hp
        obtain ⟨a, rfl, ha⟩ := h p hp
        simp [List.isPrefixOf]
        intro e
        exact absurd (e ▸ List.mem_cons_self c cs) ha
      simp only [extractAux, hf]
      exact ih cs (fun p hp => by
        obtain ⟨a, rfl, ha⟩ := h p hp
        exact ⟨a, rfl, fun hmem => ha (List.mem_cons_of_mem c hmem)⟩)

/-- C3 counterexample: with the registry `{"Lx", "P"}` (both keys of the
real registry, a two-character flag and a one-character one) and spec "LPx",
deleting "P" out of "LPx" creates a fresh occurrence of "Lx" that no later
deletion pass removes, so `extract_custom_flags(remove_custom_flags("LPx"))`
is "Lx", not the empty string. -/
theorem C3_counterexample :
    extract_custom_flags ["Lx", "P"] (remove_custom_flags ["Lx", "P"] "LPx") = "Lx" ∧
    ("Lx" : String) ≠ "" :=
  ⟨by decide, by decide⟩

/-- C3 amended: when every registered flag is a single character (deleting
one flag then cannot create an occurrence of another),
`extract_custom_flags(remove_custom_flags(s))` is the empty string for every
spec `s`. -/
theorem C3_amended : ∀ (flags : List String) (spec : String),
    (∀ f ∈ flags, f.length = 1) →
    extract_custom_flags flags (remove_custom_flags flags spec) = "" := by
  intro flags spec hlen
  have hsingle : ∀ p ∈ flag_pats flags, ∃ a, p = [a] := by
    intro p hp
    rw [flag_pats] at hp
    rcases List.mem_append.mp hp with hp | hp
    · obtain ⟨f, hf, rfl⟩ := List.mem_map.mp hp
      have hmem : f ∈ flags := (List.mem_insertionSort _).mp hf
      have h1 := hlen f hmem
      obtain ⟨d⟩ := f
      cases d with
      | nil => simp [String.length] at h1
      | cons a t =>
        cases t with
        | nil => exact ⟨a, rfl⟩
        | cons b t' => simp [String.length] at h1
    · simp at hp
      exact ⟨'~', hp⟩
  have hnotin : ∀ p ∈ flag_pats flags,
      ∃ a, p = [a] ∧
        a ∉ List.filter (fun c => !((flag_pats flags).any fun p => p == [c])) spec.data := by
    intro p hp
    obtain ⟨a, rfl⟩ := hsingle p hp
    refine ⟨a, rfl, ?_⟩
    intro hmem
    have h2 := (List.mem_filter.mp hmem).2
    have hany : ((flag_pats flags).any fun p => p == [a]) = true :=
      List.any_eq_true.mpr ⟨[a], hp, by simp⟩
    rw [hany] at h2
    simp at h2
  rw [remove_custom_flags, remove_pats_single _ hsingle]
  rw [extract_custom_flags]
  split_ifs with hempty
  · rfl
  · show String.mk (extractAux (flag_pats flags)
      (List.filter (fun c => !((flag_pats flags).any fun p => p == [c])) spec.data).length
      (List.filter (fun c => !((flag_pats flags).any fun p => p == [c])) spec.data)) = ""
    rw [extractAux_none _ _ _ hnotin]

/-- C3 witness: `C3_amended` applied at the single-character registry
`["P", "L"]` and the spec "P3L~f", with the length hypothesis discharged. -/
theorem C3_witness :
    extract_custom_flags ["P", "L"] (remove_custom_flags ["P", "L"] "P3L~f") = "" :=
  C3_amended ["P", "L"] "P3L~f" (by decide)
